import Mathlib

/-!
Verification development for the `mcp_server_api_registry` repository.

The file shallowly embeds the message-handling and trace-view code of the
React client (`src/unnamed/part_008` = ChatPage, `src/unnamed/part_007` =
TracesPage, `src/client/src/pages/ChatPageAgent.tsx`,
`src/client/src/pages/ArchitecturePage.tsx`) and, where the repository's
Python agent backend is not part of the source tree, models the agent
orchestration loop from the specification.  Definitions come first, then
the theorems about them.
-/

/-- A JSON-like value, used for the untyped payloads (`any` in the
TypeScript source): tool arguments, span inputs/outputs, tool results. -/
inductive Json where
  | null : Json
  | bool (b : Bool) : Json
  | num (n : Int) : Json
  | str (s : String) : Json
  | arr (elems : List Json) : Json
  | obj (fields : List (String × Json)) : Json

/-- Field access on a JSON object (`o.field` / `o?.field` in the source):
`none` when the value is not an object or the key is absent. -/
def Json.getField : Json → String → Option Json
  | .obj fs, k => fs.lookup k
  | _, _ => none

/-- Index access on a JSON array (`a?.[i]` in the source). -/
def Json.atIndex : Json → Nat → Option Json
  | .arr xs, i => xs[i]?
  | _, _ => none

/-- JavaScript truthiness of an optional JSON value: `undefined`, `null`,
`false`, `""` and `0` are falsy, everything else is truthy. -/
def jsTruthy : Option Json → Bool
  | none => false
  | some .null => false
  | some (.bool b) => b
  | some (.str s) => s != ""
  | some (.num n) => n != 0
  | some (.arr _) => true
  | some (.obj _) => true

/-- Message role in the client pages: the `Message` interfaces of
ChatPage (part_008 lines 31-42), ChatPageAgent and ArchitecturePage all
admit exactly the two roles `"user"` and `"assistant"`. -/
inductive Role where
  | user : Role
  | assistant : Role
deriving DecidableEq, Repr

namespace ChatPage

/-- The `function` field of a requested tool call
(part_008 lines 37-40). -/
structure ToolCallFunction where
  name : String
  arguments : String
deriving DecidableEq, Repr

/-- A tool call requested by the model (part_008 lines 34-41). -/
structure ToolCall where
  id : String
  type : String
  function : ToolCallFunction
deriving DecidableEq, Repr

/-- A chat message of the ChatPage state (part_008 lines 31-42).
The optional `tool_calls` field is modelled as a list, `[]` = absent. -/
structure Message where
  role : Role
  content : String
  tool_calls : List ToolCall
deriving DecidableEq, Repr

/-- A collected tool result (part_008 lines 44-47); the payload type is
abstract because `executeTool` returns an arbitrary JSON value. -/
structure ToolResult (α : Type) where
  tool_name : String
  result : α
deriving DecidableEq, Repr

/-- The temporary placeholder appended while waiting for the backend
(part_008 lines 108-111). -/
def thinkingMessage : Message := ⟨Role.assistant, "Thinking...", []⟩

/-- The for-loop of `sendMessage` (part_008 lines 147-154): each call is
executed in the listed order and one `ToolResult` per call is pushed onto
`toolResults`.  `exec name args` abstracts
`executeTool(name, JSON.parse(args))`. -/
def runToolLoop {α : Type} (exec : String → String → α) :
    List ToolCall → List (ToolResult α)
  | [] => []
  | c :: cs =>
      ⟨c.function.name, exec c.function.name c.function.arguments⟩ ::
        runToolLoop exec cs

/-- One observable event of the tool-executing branch of `sendMessage`. -/
inductive ToolEvent (α : Type) where
  | toolBegin (name : String) : ToolEvent α
  | toolEnd (name : String) (result : α) : ToolEvent α
  | modelSees (results : List (ToolResult α)) : ToolEvent α
deriving DecidableEq, Repr

/-- Sequencing trace of the loop body (part_008 lines 147-154): every
iteration awaits `executeTool` to completion before the next iteration
starts, so each call contributes a begin event immediately followed by
its end event. -/
def toolLoopEvents {α : Type} (exec : String → String → α) :
    List ToolCall → List (ToolEvent α)
  | [] => []
  | c :: cs =>
      ToolEvent.toolBegin c.function.name ::
        ToolEvent.toolEnd c.function.name
          (exec c.function.name c.function.arguments) ::
        toolLoopEvents exec cs

/-- Sequencing trace of the whole tool turn: the follow-up model request
(part_008 line 167) is issued only after the loop over all calls has
finished, carrying the collected results. -/
def toolTurnEvents {α : Type} (exec : String → String → α)
    (calls : List ToolCall) : List (ToolEvent α) :=
  toolLoopEvents exec calls ++ [ToolEvent.modelSees (runToolLoop exec calls)]

/-- The summary string sent back to the model (part_008 lines 163-165):
one line per tool result, joined with blank lines. -/
def toolResultsContent {α : Type} (stringify : α → String)
    (results : List (ToolResult α)) : String :=
  String.intercalate "\n\n"
    (results.map fun tr =>
      "Tool " ++ tr.tool_name ++ " returned: " ++ stringify tr.result)

/-- The message list of the follow-up request body (part_008
lines 172-180): the prior messages, the user message, then a SINGLE
assistant message that concatenates all tool results. -/
def followupMessages {α : Type} (messages : List Message)
    (userMessage : Message) (stringify : α → String)
    (results : List (ToolResult α)) : List Message :=
  messages ++
    [userMessage,
     ⟨Role.assistant,
      "I used the following tools:\n\n" ++ toolResultsContent stringify results,
      []⟩]

/-- Conversation state after a successful tool turn of `sendMessage`:
line 108 appends the user message and the thinking placeholder, line 130
drops the placeholder, line 161 appends the assistant message carrying
the calls (content defaulting like `data.content || "Using tools..."`),
lines 186-192 append the final assistant answer.  No per-call tool-result
messages are ever appended. -/
def stateAfterToolTurn (prev : List Message) (userMessage : Message)
    (dataContent : String) (dataCalls : List ToolCall)
    (finalContent : String) : List Message :=
  let s1 := prev ++ [userMessage, thinkingMessage]
  let s2 := s1.dropLast
  let s3 := s2 ++
    [⟨Role.assistant,
      (if dataContent = "" then "Using tools..." else dataContent),
      dataCalls⟩]
  s3 ++ [⟨Role.assistant, finalContent, []⟩]

end ChatPage

namespace TracesPage

/-- Icon dispatch of the trace view on a span's kind
(part_007 lines 139-150): the recognized kinds are `AGENT`, `LLM` and
`TOOL`; every other `span_type` string falls to the default box icon. -/
def getSpanIcon (spanType : String) : String :=
  match spanType with
  | "AGENT" => "🤖"
  | "LLM" => "🧠"
  | "TOOL" => "🔧"
  | _ => "📦"

/-- Classified output of `renderSpanDetails.getOutputContent`
(part_007 lines 221-251): markdown text, a JSON value, or raw text. -/
inductive OutputContent where
  | markdown (content : Json) : OutputContent
  | jsonOut (content : Json) : OutputContent
  | textOut (content : Json) : OutputContent

/-- `getOutputContent` of part_007 lines 221-251.  `parse` abstracts
`JSON.parse` applied to the tool result inside try/catch (`none` models a
thrown parse error).  Agent spans surface `outputs.response` as markdown;
`LLM` spans surface the first choice's assistant message (its `content`
as markdown, else its `tool_calls` as JSON); `TOOL` spans surface the
parsed `outputs.result`; anything else falls back to the raw outputs. -/
def getOutputContent (parse : Json → Option Json) (span_type : String)
    (outputs : Option Json) : Option OutputContent :=
  match outputs with
  | none => none
  | some o =>
      let response := o.getField "response"
      let message := response.bind fun r =>
        (r.getField "choices").bind fun cs =>
          (cs.atIndex 0).bind fun c0 => c0.getField "message"
      let msgContent := message.bind fun m => m.getField "content"
      let msgToolCalls := message.bind fun m => m.getField "tool_calls"
      let result := o.getField "result"
      if span_type = "AGENT" ∧ jsTruthy response then
        response.map OutputContent.markdown
      else if span_type = "LLM" ∧ jsTruthy message ∧ jsTruthy msgContent then
        msgContent.map OutputContent.markdown
      else if span_type = "LLM" ∧ jsTruthy message ∧ jsTruthy msgToolCalls then
        msgToolCalls.map OutputContent.jsonOut
      else if span_type = "TOOL" ∧ jsTruthy result then
        match result with
        | some rv =>
            match parse rv with
            | some parsed => some (OutputContent.jsonOut parsed)
            | none => some (OutputContent.textOut rv)
        | none => some (OutputContent.jsonOut o)
      else
        some (OutputContent.jsonOut o)

end TracesPage

namespace AgentClient

/-- A displayed tool call of the agent client pages
(ArchitecturePage lines 386-390, ChatPageAgent lines 48-52): the agent
response records, per executed call, the tool name, its arguments and its
result (the result arrives as serialized JSON text, see
`docs/INTEGRATION_COMPLETE.md` lines 230-243). -/
structure DisplayToolCall where
  tool : String
  args : Json
  result : String

/-- A chat message of the agent client pages (ArchitecturePage
lines 383-392; ChatPageAgent's `Message` is the same without
`trace_id`, which stays `none` there).  The optional `tool_calls` and
`trace_id` are display annotations on assistant messages. -/
structure Message where
  role : Role
  content : String
  tool_calls : List DisplayToolCall
  trace_id : Option String

/-- The wire form of a prior message in the request body: the mapping
`messages.map(m => ({ role: m.role, content: m.content }))`
(ChatPageAgent lines 103-115, ArchitecturePage lines 553-567) keeps only
these two fields. -/
structure WireMessage where
  role : Role
  content : String
deriving DecidableEq, Repr

/-- Projection of a stored message onto the wire form. -/
def toWire (m : Message) : WireMessage := ⟨m.role, m.content⟩

/-- The `messages` field of the `/api/agent/chat` request body:
all prior messages mapped to role/content pairs, then the new user
message. -/
def requestMessages (messages : List Message) (userMessage : Message) :
    List WireMessage :=
  messages.map toWire ++ [toWire userMessage]

/-- The parsed JSON body of the agent endpoint's HTTP response as the
client reads it: `detail` is set on an error payload, otherwise
`response`, `tool_calls` and `trace_id` are read. -/
structure AgentChatData where
  detail : Option String
  response : String
  tool_calls : List DisplayToolCall
  trace_id : Option String

/-- Outcome of the `fetch`/`response.json()` pair: either parsed data or
a thrown request error (handled by the `catch` block). -/
inductive FetchOutcome where
  | ok (data : AgentChatData) : FetchOutcome
  | thrown : FetchOutcome

/-- The temporary placeholder (ChatPageAgent lines 96-99). -/
def thinkingMessage : Message := ⟨Role.assistant, "Thinking...", [], none⟩

/-- The apologetic message of the `catch` block
(ChatPageAgent lines 146-152). -/
def requestErrorMessage : Message :=
  ⟨Role.assistant, "Sorry, I encountered an error processing your request.",
   [], none⟩

/-- State transformation of `ChatPageAgent.sendMessage` on the message
list (lines 95-158): append the user message and the thinking
placeholder; after the response, drop the placeholder
(`prev.slice(0, -1)`); then append exactly one assistant message —
`Error: <detail>` on an error payload, the agent's response (with its
`tool_calls` annotation) on success, or the apologetic message when the
request threw. -/
def sendMessage (prev : List Message) (userMessage : Message)
    (outcome : FetchOutcome) : List Message :=
  let afterThinking := prev ++ [userMessage, thinkingMessage]
  match outcome with
  | FetchOutcome.thrown =>
      afterThinking.dropLast ++ [requestErrorMessage]
  | FetchOutcome.ok data =>
      let base := afterThinking.dropLast
      match data.detail with
      | some d => base ++ [⟨Role.assistant, "Error: " ++ d, [], none⟩]
      | none =>
          base ++ [⟨Role.assistant, data.response, data.tool_calls, none⟩]

/-- State transformation of `ArchitecturePage.sendMessage`
(lines 536-610): identical to `ChatPageAgent.sendMessage` except that the
successful assistant message also records `data.trace_id` for the
"View Trace" link (lines 586-595). -/
def sendMessageArch (prev : List Message) (userMessage : Message)
    (outcome : FetchOutcome) : List Message :=
  let afterThinking := prev ++ [userMessage, thinkingMessage]
  match outcome with
  | FetchOutcome.thrown =>
      afterThinking.dropLast ++ [requestErrorMessage]
  | FetchOutcome.ok data =>
      let base := afterThinking.dropLast
      match data.detail with
      | some d => base ++ [⟨Role.assistant, "Error: " ++ d, [], none⟩]
      | none =>
          base ++
            [⟨Role.assistant, data.response, data.tool_calls, data.trace_id⟩]

end AgentClient

namespace AgentCore

/-- Modelled from the spec: span kind of the trace model (spec §3,
"kind (`AGENT` | `MODEL` | `TOOL`)").  The agent backend that produces
spans is not part of the source tree; the trace view of part_007 labels
the model kind `LLM` on the wire. -/
inductive SpanKind where
  | AGENT : SpanKind
  | MODEL : SpanKind
  | TOOL : SpanKind
deriving DecidableEq, BEq, Repr

/-- Modelled from the spec: span status (spec §3,
"status (`RUNNING` | `SUCCESS` | `ERROR`)"). -/
inductive SpanStatus where
  | RUNNING : SpanStatus
  | SUCCESS : SpanStatus
  | ERROR : SpanStatus
deriving DecidableEq, BEq, Repr

/-- Modelled from the spec: a finalized span of the trace model (spec §3
and §4.1).  `finalize_trace` rejects still-open spans, so a finalized
span's end time is always set; times are an abstract monotone clock. -/
structure Span where
  span_id : Nat
  name : String
  kind : SpanKind
  start_time : Nat
  end_time : Nat
  parent_id : Option Nat
  status : SpanStatus
deriving DecidableEq, Repr

/-- Modelled from the spec: message role of the orchestrator conversation
(spec §3, roles `user`, `assistant`, `tool`, with an optional leading
system message). -/
inductive SRole where
  | system : SRole
  | user : SRole
  | assistant : SRole
  | tool : SRole
deriving DecidableEq, Repr

/-- Modelled from the spec: a tool call requested by the model (spec §3,
"{id, tool name, arguments}"). -/
structure SToolCall where
  id : String
  name : String
  arguments : Json

/-- Modelled from the spec: a conversation message; assistant messages
carry zero or more requested tool calls (spec §3). -/
structure SMessage where
  role : SRole
  content : String
  tool_calls : List SToolCall

/-- Modelled from the spec: a tool result (spec §3,
"{tool call id, success flag, payload or error description}"); the
payload arrives as serialized JSON text. -/
structure SToolResult where
  tool_call_id : String
  success : Bool
  payload : String

/-- Modelled from the spec: one model turn returns either a final textual
answer or a list of requested tool calls (spec §6, Model Client
contract). -/
inductive ModelStep where
  | finalText (text : String) : ModelStep
  | toolCalls (calls : List SToolCall) : ModelStep

/-- Modelled from the spec: one executed call of the caller-facing output
list (spec §6, "ordered list of {tool name, arguments, result} for UI
display"). -/
structure ExecutedCall where
  tool : String
  args : Json
  result : String

/-- Modelled from the spec: the mutable state of one `run()` invocation —
conversation, clock, produced spans, executed calls, iteration counter
(spec §4.2 and §5, "each `run()` invocation owns its own conversation,
counter, and span set"). -/
structure LoopState where
  conv : List SMessage
  clock : Nat
  spans : List Span
  executed : List ExecutedCall
  iterations : Nat

/-- Modelled from the spec: executing one requested tool call (spec §4.2
`EXECUTING_TOOLS` and §4.3): the executor's result (success or converted
failure) is wrapped in a `TOOL` span whose parent is the root agent span,
one tool-result message is appended to the conversation, and the call is
recorded on the executed list. -/
def execToolCall (exec : SToolCall → SToolResult) (st : LoopState)
    (c : SToolCall) : LoopState :=
  let r := exec c
  let sp : Span :=
    ⟨st.spans.length + 1, c.name, SpanKind.TOOL, st.clock, st.clock + 1,
     some 0,
     if r.success then SpanStatus.SUCCESS else SpanStatus.ERROR⟩
  ⟨st.conv ++ [⟨SRole.tool, r.payload, []⟩],
   st.clock + 2,
   st.spans ++ [sp],
   st.executed ++ [⟨c.name, c.arguments, r.payload⟩],
   st.iterations⟩

/-- Modelled from the spec: every Model Client invocation happens inside
a `MODEL`-kind span whose parent is the root agent span (spec §4.2). -/
def recordModelSpan (st : LoopState) : LoopState :=
  ⟨st.conv, st.clock + 2,
   st.spans ++
     [⟨st.spans.length + 1, "model", SpanKind.MODEL, st.clock,
       st.clock + 1, some 0, SpanStatus.SUCCESS⟩],
   st.executed, st.iterations⟩

/-- Append the model's plain-text answer as an assistant message. -/
def appendAssistantText (st : LoopState) (t : String) : LoopState :=
  ⟨st.conv ++ [⟨SRole.assistant, t, []⟩], st.clock, st.spans, st.executed,
   st.iterations⟩

/-- Append the assistant message carrying the requested tool calls. -/
def appendAssistantCalls (st : LoopState) (cs : List SToolCall) :
    LoopState :=
  ⟨st.conv ++ [⟨SRole.assistant, "", cs⟩], st.clock, st.spans, st.executed,
   st.iterations⟩

/-- Increment the iteration counter after a tool turn (spec §4.2). -/
def bumpIterations (st : LoopState) : LoopState :=
  ⟨st.conv, st.clock, st.spans, st.executed, st.iterations + 1⟩

/-- Modelled from the spec: the best-effort answer noting the iteration
limit was hit (spec §4.2, `* → FAILED`). -/
def limitText : String :=
  "Maximum iterations reached before the model produced a final answer."

/-- Modelled from the spec: the orchestration loop (spec §4.2).  Each
round invokes the Model Client inside a `MODEL` span; a plain-text
response ends the loop with `SUCCESS`; a tool-call response appends the
assistant message carrying the calls, executes each call in the listed
order, increments the iteration counter and loops; exhausting the
configured maximum ends with the best-effort answer and `ERROR`. -/
def runIter (model : List SMessage → ModelStep)
    (exec : SToolCall → SToolResult) :
    Nat → LoopState → String × SpanStatus × LoopState
  | 0, st => (limitText, SpanStatus.ERROR, st)
  | fuel + 1, st =>
      match model st.conv with
      | ModelStep.finalText t =>
          (t, SpanStatus.SUCCESS, appendAssistantText (recordModelSpan st) t)
      | ModelStep.toolCalls cs =>
          let st1 := appendAssistantCalls (recordModelSpan st) cs
          let st2 := cs.foldl (execToolCall exec) st1
          runIter model exec fuel (bumpIterations st2)

/-- Modelled from the spec: the result of `run(conversation,
tool_catalog)` — final text plus the finalized trace (root `AGENT` span
and its child spans), overall status, iteration count and the executed
calls for UI display (spec §4.2 result contract and §6). -/
structure RunResult where
  final_text : String
  root : Span
  spans : List Span
  status : SpanStatus
  iterations : Nat
  executed : List ExecutedCall

/-- Modelled from the spec: the configured iteration maximum defaults
to 10 (spec §4.2). -/
def defaultMaxIterations : Nat := 10

/-- Modelled from the spec: one orchestration request (spec §4.2).  The
root `AGENT` span (id 0) opens at the very start and closes exactly once
when the loop reaches `DONE` or `FAILED`, after every child span has
closed. -/
def run (model : List SMessage → ModelStep)
    (exec : SToolCall → SToolResult) (conv : List SMessage)
    (maxIterations : Nat) : RunResult :=
  let st0 : LoopState := ⟨conv, 1, [], [], 0⟩
  let res := runIter model exec maxIterations st0
  let root : Span :=
    ⟨0, "agent", SpanKind.AGENT, 0, res.2.2.clock, none, res.2.1⟩
  ⟨res.1, root, res.2.2.spans, res.2.1, res.2.2.iterations,
   res.2.2.executed⟩

/-- Modelled from the spec: the caller-facing response of one
orchestration request (spec §6, "output = {final answer text, ordered
list of {tool name, arguments, result} for UI display, trace
identifier}"; the agent endpoint producing it is not in the source
tree — `docs/INTEGRATION_COMPLETE.md` lines 219-243 document its shape
and ArchitecturePage lines 586-595 consume it). -/
structure AgentChatResponse where
  response : String
  iterations : Nat
  tool_calls : List ExecutedCall
  trace_id : String

/-- Build the caller-facing response from a run result and the
identifier under which the trace is stored. -/
def mkAgentChatResponse (r : RunResult) (trace_id : String) :
    AgentChatResponse :=
  ⟨r.final_text, r.iterations, r.executed, trace_id⟩

/-- Modelled from the spec: trace lookup by identifier
(spec §6, `get_trace(trace_id) -> Trace`). -/
def get_trace (store : List (String × RunResult)) (trace_id : String) :
    Option RunResult :=
  store.lookup trace_id

end AgentCore

/-! ## Theorems -/

/-- Dropping the last element of a list that ends in two appended
elements removes exactly the second one (the `prev.slice(0, -1)` step of
the client pages). -/
theorem dropLast_append_pair {β : Type} (l : List β) (a b : β) :
    (l ++ [a, b]).dropLast = l ++ [a] := by
  have h : l ++ [a, b] = (l ++ [a]) ++ [b] := by simp
  rw [h]
  simp

namespace ChatPage

/-- The sequencing trace of the tool loop has two events per call. -/
theorem toolLoopEvents_length {α : Type} (exec : String → String → α)
    (calls : List ToolCall) :
    (toolLoopEvents exec calls).length = 2 * calls.length := by
  induction calls with
  | nil => simp [toolLoopEvents]
  | cons c cs ih =>
      simp [toolLoopEvents, ih]
      omega

/-- The collected results are exactly one per call, in call order. -/
theorem runToolLoop_eq_map {α : Type} (exec : String → String → α)
    (calls : List ToolCall) :
    runToolLoop exec calls =
      calls.map fun c =>
        ⟨c.function.name, exec c.function.name c.function.arguments⟩ := by
  induction calls with
  | nil => rfl
  | cons c cs ih => simp [runToolLoop, ih]

/-- Positions of the begin/end events of the k-th call in the loop's
sequencing trace. -/
theorem toolLoopEvents_getElem {α : Type} (exec : String → String → α) :
    ∀ (calls : List ToolCall) (k : Nat) (h : k < calls.length),
      (toolLoopEvents exec calls)[2 * k]? =
        some (ToolEvent.toolBegin calls[k].function.name) ∧
      (toolLoopEvents exec calls)[2 * k + 1]? =
        some (ToolEvent.toolEnd calls[k].function.name
          (exec calls[k].function.name calls[k].function.arguments))
  | [], k, h => absurd h (by simp)
  | c :: cs, 0, _ => by simp [toolLoopEvents]
  | c :: cs, k + 1, h => by
      have hk : k < cs.length := by
        simpa using Nat.lt_of_succ_lt_succ h
      have ih := toolLoopEvents_getElem exec cs k hk
      have e1 : 2 * (k + 1) = 2 * k + 1 + 1 := by ring
      have e2 : 2 * (k + 1) + 1 = 2 * k + 1 + 1 + 1 := by ring
      refine ⟨?_, ?_⟩
      · rw [e1]
        simpa [toolLoopEvents] using ih.1
      · rw [e2]
        simpa [toolLoopEvents] using ih.2

end ChatPage

namespace ChatPage

/-- Claim C4: for every model turn that requests multiple tool calls,
`ChatPage.sendMessage` executes the calls strictly sequentially — in the
sequencing trace of the loop, the k-th call's begin event sits at
position 2k and its end event immediately after it at position 2k+1, in
exactly the order the model listed the calls — and the follow-up model
request (the single `modelSees` event) is the last event, after all
calls have completed, carrying the collected results. -/
theorem sendMessage_toolCalls_sequential {α : Type}
    (exec : String → String → α) (calls : List ToolCall) (k : Nat)
    (h : k < calls.length) :
    (toolTurnEvents exec calls)[2 * k]? =
      some (ToolEvent.toolBegin calls[k].function.name) ∧
    (toolTurnEvents exec calls)[2 * k + 1]? =
      some (ToolEvent.toolEnd calls[k].function.name
        (exec calls[k].function.name calls[k].function.arguments)) ∧
    (toolTurnEvents exec calls)[2 * calls.length]? =
      some (ToolEvent.modelSees (runToolLoop exec calls)) ∧
    (toolTurnEvents exec calls).length = 2 * calls.length + 1 := by
  have hl := toolLoopEvents_length exec calls
  have hg := toolLoopEvents_getElem exec calls k h
  have h2k : 2 * k < (toolLoopEvents exec calls).length := by omega
  have h2k1 : 2 * k + 1 < (toolLoopEvents exec calls).length := by omega
  refine ⟨?_, ?_, ?_, ?_⟩
  · rw [toolTurnEvents, List.getElem?_append_left h2k]
    exact hg.1
  · rw [toolTurnEvents, List.getElem?_append_left h2k1]
    exact hg.2
  · rw [toolTurnEvents, ← hl]
    exact List.getElem?_concat_length _ _
  · simp [toolTurnEvents, hl]

/-- Witness for C4: three simultaneous calls, checked at the middle
call. -/
theorem sendMessage_toolCalls_sequential_witness :
    (toolTurnEvents (fun n a => n ++ a)
        [⟨"call_1", "function", ⟨"check_registry", "x"⟩⟩,
         ⟨"call_2", "function", ⟨"probe_endpoint", "y"⟩⟩,
         ⟨"call_3", "function", ⟨"parse_docs", "z"⟩⟩])[2 * 1]? =
      some (ToolEvent.toolBegin "probe_endpoint") ∧
    (toolTurnEvents (fun n a => n ++ a)
        [⟨"call_1", "function", ⟨"check_registry", "x"⟩⟩,
         ⟨"call_2", "function", ⟨"probe_endpoint", "y"⟩⟩,
         ⟨"call_3", "function", ⟨"parse_docs", "z"⟩⟩])[2 * 1 + 1]? =
      some (ToolEvent.toolEnd "probe_endpoint" "probe_endpointy") ∧
    (toolTurnEvents (fun n a => n ++ a)
        [⟨"call_1", "function", ⟨"check_registry", "x"⟩⟩,
         ⟨"call_2", "function", ⟨"probe_endpoint", "y"⟩⟩,
         ⟨"call_3", "function", ⟨"parse_docs", "z"⟩⟩])[2 * 3]? =
      some (ToolEvent.modelSees
        [⟨"check_registry", "check_registryx"⟩,
         ⟨"probe_endpoint", "probe_endpointy"⟩,
         ⟨"parse_docs", "parse_docsz"⟩]) ∧
    (toolTurnEvents (fun n a => n ++ a)
        [⟨"call_1", "function", ⟨"check_registry", "x"⟩⟩,
         ⟨"call_2", "function", ⟨"probe_endpoint", "y"⟩⟩,
         ⟨"call_3", "function", ⟨"parse_docs", "z"⟩⟩]).length = 2 * 3 + 1 :=
  sendMessage_toolCalls_sequential (fun n a => n ++ a)
    [⟨"call_1", "function", ⟨"check_registry", "x"⟩⟩,
     ⟨"call_2", "function", ⟨"probe_endpoint", "y"⟩⟩,
     ⟨"call_3", "function", ⟨"parse_docs", "z"⟩⟩] 1 (by decide)

/-- Claim C1 counterexample: on a turn requesting two tool calls,
`ChatPage.sendMessage` appends exactly ONE message after the assistant
message carrying the calls (the final assistant answer), not one
tool-result message per requested call — the conversation would need
4 messages here (user, assistant with calls, two tool results) but has
3, and the `Message` role type has no tool role at all. -/
theorem chatPage_no_per_call_tool_result_messages :
    (stateAfterToolTurn [] ⟨Role.user, "register then validate", []⟩ ""
        [⟨"call_1", "function", ⟨"register_api", "x"⟩⟩,
         ⟨"call_2", "function", ⟨"validate_api", "y"⟩⟩] "done") =
      [⟨Role.user, "register then validate", []⟩,
       ⟨Role.assistant, "Using tools...",
        [⟨"call_1", "function", ⟨"register_api", "x"⟩⟩,
         ⟨"call_2", "function", ⟨"validate_api", "y"⟩⟩]⟩,
       ⟨Role.assistant, "done", []⟩] ∧
    (stateAfterToolTurn [] ⟨Role.user, "register then validate", []⟩ ""
        [⟨"call_1", "function", ⟨"register_api", "x"⟩⟩,
         ⟨"call_2", "function", ⟨"validate_api", "y"⟩⟩] "done").length ≠
      4 := by
  decide

/-- Claim C1 as amended: after a model turn that requests tool calls,
`ChatPage.sendMessage` does not append per-call tool-result messages;
the displayed conversation gains the assistant message carrying the
calls followed by exactly one final assistant message, and the model is
sent a single combined assistant message whose summary collects the
results of all requested calls, one per call, in exactly the order the
calls were requested. -/
theorem chatPage_combined_tool_summary {α : Type} (prev : List Message)
    (u : Message) (dc : String) (calls : List ToolCall) (fc : String)
    (exec : String → String → α) (stringify : α → String) :
    stateAfterToolTurn prev u dc calls fc =
      prev ++
        [u,
         ⟨Role.assistant, (if dc = "" then "Using tools..." else dc),
          calls⟩,
         ⟨Role.assistant, fc, []⟩] ∧
    followupMessages prev u stringify (runToolLoop exec calls) =
      prev ++
        [u,
         ⟨Role.assistant,
          "I used the following tools:\n\n" ++
            toolResultsContent stringify (runToolLoop exec calls), []⟩] ∧
    (runToolLoop exec calls).map ToolResult.tool_name =
      calls.map fun c => c.function.name := by
  refine ⟨?_, rfl, ?_⟩
  · simp [stateAfterToolTurn, dropLast_append_pair]
  · simp [runToolLoop_eq_map, List.map_map]

end ChatPage

namespace AgentClient

/-- Claim C9: the request body sent to the agent endpoint keeps only the
role and content of each prior message — the `tool_calls` and `trace_id`
annotations of earlier assistant messages are stripped, so two histories
that differ only in those annotations produce identical request
payloads, and each transmitted message is exactly a role/content
pair. -/
theorem requestMessages_strips_annotations (msgs : List Message)
    (userMessage : Message) (tcs : Message → List DisplayToolCall)
    (tid : Message → Option String) :
    requestMessages
        (msgs.map fun m => ⟨m.role, m.content, tcs m, tid m⟩)
        userMessage =
      requestMessages msgs userMessage ∧
    requestMessages msgs userMessage =
      msgs.map (fun m => (⟨m.role, m.content⟩ : WireMessage)) ++
        [⟨userMessage.role, userMessage.content⟩] := by
  constructor
  · simp [requestMessages, List.map_map, toWire]
  · simp [requestMessages, toWire]

/-- Claim C10: for every send, whatever the outcome (agent response,
error payload with a `detail` field, or a thrown request error), the
"Thinking..." placeholder is removed again and the conversation ends up
extending the previous one by exactly the user message followed by one
assistant message. -/
theorem sendMessage_one_assistant_per_send (prev : List Message)
    (userMessage : Message) (outcome : FetchOutcome) :
    ∃ a : Message,
      sendMessage prev userMessage outcome = prev ++ [userMessage, a] ∧
      a.role = Role.assistant ∧
      (sendMessage prev userMessage outcome).length = prev.length + 2 := by
  cases outcome with
  | thrown =>
      exact ⟨requestErrorMessage,
        by simp [sendMessage, dropLast_append_pair],
        rfl,
        by simp [sendMessage, dropLast_append_pair]⟩
  | ok data =>
      cases hd : data.detail with
      | some d =>
          exact ⟨⟨Role.assistant, "Error: " ++ d, [], none⟩,
            by simp [sendMessage, hd, dropLast_append_pair],
            rfl,
            by simp [sendMessage, hd, dropLast_append_pair]⟩
      | none =>
          exact ⟨⟨Role.assistant, data.response, data.tool_calls, none⟩,
            by simp [sendMessage, hd, dropLast_append_pair],
            rfl,
            by simp [sendMessage, hd, dropLast_append_pair]⟩

/-- Claim C5: the caller always receives a populated final text — on the
failure paths `ChatPageAgent.sendMessage` appends an explanatory
assistant message (never letting the request error escape): the thrown
path yields the apologetic message and the error-payload path yields
`Error: <detail>`, both non-empty. -/
theorem sendMessage_failure_yields_text (prev : List Message)
    (userMessage : Message) :
    (sendMessage prev userMessage FetchOutcome.thrown =
        prev ++ [userMessage, requestErrorMessage] ∧
      requestErrorMessage.content ≠ "") ∧
    ∀ (d resp : String) (tcs : List DisplayToolCall)
      (tid : Option String),
      sendMessage prev userMessage
          (FetchOutcome.ok ⟨some d, resp, tcs, tid⟩) =
        prev ++
          [userMessage, ⟨Role.assistant, "Error: " ++ d, [], none⟩] ∧
      ("Error: " ++ d) ≠ "" := by
  refine ⟨⟨by simp [sendMessage, dropLast_append_pair], by decide⟩, ?_⟩
  intro d resp tcs tid
  refine ⟨by simp [sendMessage, dropLast_append_pair], ?_⟩
  intro hcon
  have hlen := congrArg String.length hcon
  have h7 : ("Error: " : String).length = 7 := rfl
  have h0 : ("" : String).length = 0 := rfl
  rw [String.length_append, h7, h0] at hlen
  omega

end AgentClient

namespace TracesPage

/-- Claim C2 counterexample: the trace view's model-span kind is `LLM`,
not `MODEL` — `getSpanIcon` maps `"MODEL"` to the default box icon
reserved for unrecognized kinds while `"LLM"` gets the dedicated model
icon, and `getOutputContent` surfaces a model response's assistant
message only under `span_type = "LLM"`, falling back to the raw outputs
for `span_type = "MODEL"`. -/
theorem span_kind_MODEL_unrecognized :
    getSpanIcon "MODEL" = "📦" ∧
    getSpanIcon "MODEL" ≠ getSpanIcon "LLM" ∧
    getSpanIcon "LLM" = "🧠" ∧
    getOutputContent (fun _ => none) "LLM"
        (some (Json.obj [("response",
          Json.obj [("choices", Json.arr [Json.obj [("message",
            Json.obj [("content", Json.str "hello")])]])])])) =
      some (OutputContent.markdown (Json.str "hello")) ∧
    getOutputContent (fun _ => none) "MODEL"
        (some (Json.obj [("response",
          Json.obj [("choices", Json.arr [Json.obj [("message",
            Json.obj [("content", Json.str "hello")])]])])])) =
      some (OutputContent.jsonOut (Json.obj [("response",
          Json.obj [("choices", Json.arr [Json.obj [("message",
            Json.obj [("content", Json.str "hello")])]])])])) := by
  refine ⟨rfl, by decide, rfl, rfl, rfl⟩

/-- Claim C2 as amended: the span kinds the trace view recognizes are
exactly `AGENT`, `LLM` and `TOOL` — model-call spans carry kind `LLM`
(not `MODEL`), tool spans `TOOL`, the root span `AGENT`; each of the
three gets a dedicated icon and every other kind string falls to the
default icon and the raw-output fallback. -/
theorem span_kinds_AGENT_LLM_TOOL (s : String)
    (parse : Json → Option Json) (o : Json) (h1 : s ≠ "AGENT")
    (h2 : s ≠ "LLM") (h3 : s ≠ "TOOL") :
    getSpanIcon "AGENT" = "🤖" ∧
    getSpanIcon "LLM" = "🧠" ∧
    getSpanIcon "TOOL" = "🔧" ∧
    getSpanIcon s = "📦" ∧
    getOutputContent parse s (some o) =
      some (OutputContent.jsonOut o) := by
  refine ⟨rfl, rfl, rfl, ?_, ?_⟩
  · simp [getSpanIcon, h1, h2, h3]
  · simp [getOutputContent, h1, h2, h3]

/-- Witness for the amended C2 at the concrete unrecognized kind
string `"SPAN"`. -/
theorem span_kinds_AGENT_LLM_TOOL_witness :
    getSpanIcon "AGENT" = "🤖" ∧
    getSpanIcon "LLM" = "🧠" ∧
    getSpanIcon "TOOL" = "🔧" ∧
    getSpanIcon "SPAN" = "📦" ∧
    getOutputContent (fun _ => none) "SPAN" (some Json.null) =
      some (OutputContent.jsonOut Json.null) :=
  span_kinds_AGENT_LLM_TOOL "SPAN" (fun _ => none) Json.null
    (by decide) (by decide) (by decide)

end TracesPage

namespace AgentCore

/-- Executing a tool call leaves the iteration counter unchanged. -/
theorem execToolCall_iterations (exec : SToolCall → SToolResult)
    (st : LoopState) (c : SToolCall) :
    (execToolCall exec st c).iterations = st.iterations := rfl

/-- Executing a turn's tool calls leaves the iteration counter
unchanged. -/
theorem foldl_execToolCall_iterations (exec : SToolCall → SToolResult) :
    ∀ (cs : List SToolCall) (st : LoopState),
      (cs.foldl (execToolCall exec) st).iterations = st.iterations
  | [], _ => rfl
  | c :: cs, st => by
      rw [List.foldl_cons,
        foldl_execToolCall_iterations exec cs (execToolCall exec st c),
        execToolCall_iterations]

/-- Executing a tool call adds no `MODEL`-kind span. -/
theorem execToolCall_modelCount (exec : SToolCall → SToolResult)
    (st : LoopState) (c : SToolCall) :
    (execToolCall exec st c).spans.countP
        (fun s => s.kind == SpanKind.MODEL) =
      st.spans.countP (fun s => s.kind == SpanKind.MODEL) := by
  simp [execToolCall, List.countP_append, List.countP_cons]
  rfl

/-- Executing a turn's tool calls adds no `MODEL`-kind span. -/
theorem foldl_execToolCall_modelCount (exec : SToolCall → SToolResult) :
    ∀ (cs : List SToolCall) (st : LoopState),
      (cs.foldl (execToolCall exec) st).spans.countP
          (fun s => s.kind == SpanKind.MODEL) =
        st.spans.countP (fun s => s.kind == SpanKind.MODEL)
  | [], _ => rfl
  | c :: cs, st => by
      rw [List.foldl_cons,
        foldl_execToolCall_modelCount exec cs (execToolCall exec st c),
        execToolCall_modelCount]

/-- Recording a model span adds exactly one `MODEL`-kind span. -/
theorem recordModelSpan_modelCount (st : LoopState) :
    (recordModelSpan st).spans.countP
        (fun s => s.kind == SpanKind.MODEL) =
      st.spans.countP (fun s => s.kind == SpanKind.MODEL) + 1 := by
  simp [recordModelSpan, List.countP_append, List.countP_cons]
  rfl

/-- A model that always requests tool calls drives the loop to fuel
exhaustion: the loop returns the best-effort limit answer with status
`ERROR`, having consumed exactly `fuel` iterations and invoked the model
exactly `fuel` times. -/
theorem runIter_always_toolCalls (model : List SMessage → ModelStep)
    (exec : SToolCall → SToolResult)
    (h : ∀ c, ∃ cs, model c = ModelStep.toolCalls cs) :
    ∀ (fuel : Nat) (st : LoopState),
      (runIter model exec fuel st).1 = limitText ∧
      (runIter model exec fuel st).2.1 = SpanStatus.ERROR ∧
      (runIter model exec fuel st).2.2.iterations =
        st.iterations + fuel ∧
      (runIter model exec fuel st).2.2.spans.countP
          (fun s => s.kind == SpanKind.MODEL) =
        st.spans.countP (fun s => s.kind == SpanKind.MODEL) + fuel
  | 0, st => by simp [runIter]
  | fuel + 1, st => by
      obtain ⟨cs, hcs⟩ := h st.conv
      have ih := runIter_always_toolCalls model exec h fuel
        (bumpIterations
          (cs.foldl (execToolCall exec)
            (appendAssistantCalls (recordModelSpan st) cs)))
      have e1 :
          (bumpIterations
            (cs.foldl (execToolCall exec)
              (appendAssistantCalls (recordModelSpan st) cs))).iterations =
            st.iterations + 1 := by
        simp [bumpIterations, foldl_execToolCall_iterations,
          appendAssistantCalls, recordModelSpan]
      have e2 :
          (bumpIterations
            (cs.foldl (execToolCall exec)
              (appendAssistantCalls (recordModelSpan st) cs))).spans.countP
              (fun s => s.kind == SpanKind.MODEL) =
            st.spans.countP (fun s => s.kind == SpanKind.MODEL) + 1 := by
        have hc := foldl_execToolCall_modelCount exec cs
          (appendAssistantCalls (recordModelSpan st) cs)
        simp only [bumpIterations]
        rw [hc]
        simpa [appendAssistantCalls] using recordModelSpan_modelCount st
      simp only [runIter, hcs]
      exact ⟨ih.1, ih.2.1,
        by rw [ih.2.2.1, e1]; omega,
        by rw [ih.2.2.2, e2]; omega⟩

end AgentCore

namespace AgentCore

/-- Claim C3: if the model requests at least one tool call on every
turn, `run` terminates at exactly the configured maximum number of
iterations — the iteration counter and the number of model invocations
(`MODEL` spans) both equal the maximum, no more and no fewer — returning
the best-effort limit answer with trace status `ERROR`; the configured
default maximum is 10. -/
theorem run_hits_iteration_limit (model : List SMessage → ModelStep)
    (exec : SToolCall → SToolResult) (conv : List SMessage)
    (maxIterations : Nat)
    (h : ∀ c, ∃ cs, model c = ModelStep.toolCalls cs) :
    (run model exec conv maxIterations).iterations = maxIterations ∧
    (run model exec conv maxIterations).status = SpanStatus.ERROR ∧
    (run model exec conv maxIterations).final_text = limitText ∧
    (run model exec conv maxIterations).spans.countP
        (fun s => s.kind == SpanKind.MODEL) = maxIterations ∧
    defaultMaxIterations = 10 := by
  have hr := runIter_always_toolCalls model exec h maxIterations
    ⟨conv, 1, [], [], 0⟩
  refine ⟨?_, ?_, ?_, ?_, rfl⟩
  · simpa [run] using hr.2.2.1
  · simpa [run] using hr.2.1
  · simpa [run] using hr.1
  · simpa [run] using hr.2.2.2

/-- Witness for C3: a model that always asks for one registry check
exhausts the default maximum of 10 iterations. -/
theorem run_hits_iteration_limit_witness :
    (run
        (fun _ => ModelStep.toolCalls
          [⟨"call_1", "check_api_registry", Json.null⟩])
        (fun c => ⟨c.id, true, "ok"⟩) [] 10).iterations = 10 ∧
    (run
        (fun _ => ModelStep.toolCalls
          [⟨"call_1", "check_api_registry", Json.null⟩])
        (fun c => ⟨c.id, true, "ok"⟩) [] 10).status =
      SpanStatus.ERROR := by
  have h := run_hits_iteration_limit
    (fun _ => ModelStep.toolCalls
      [⟨"call_1", "check_api_registry", Json.null⟩])
    (fun c => ⟨c.id, true, "ok"⟩) [] 10
    (fun _ => ⟨[⟨"call_1", "check_api_registry", Json.null⟩], rfl⟩)
  exact ⟨h.1, h.2.1⟩

/-- Claim C6: when the model's first response to the conversation is
plain text with no tool calls, `run` returns exactly that text with
status `SUCCESS`, and the resulting trace consists of the root `AGENT`
span plus exactly one `MODEL` span and no `TOOL` spans. -/
theorem run_plain_text (model : List SMessage → ModelStep)
    (exec : SToolCall → SToolResult) (conv : List SMessage)
    (maxIterations : Nat) (t : String) (hpos : 0 < maxIterations)
    (h : model conv = ModelStep.finalText t) :
    (run model exec conv maxIterations).final_text = t ∧
    (run model exec conv maxIterations).status = SpanStatus.SUCCESS ∧
    (run model exec conv maxIterations).spans.countP
        (fun s => s.kind == SpanKind.MODEL) = 1 ∧
    (run model exec conv maxIterations).spans.countP
        (fun s => s.kind == SpanKind.TOOL) = 0 ∧
    (run model exec conv maxIterations).root.kind = SpanKind.AGENT := by
  obtain ⟨fuel, rfl⟩ : ∃ fuel, maxIterations = fuel + 1 :=
    ⟨maxIterations - 1, by omega⟩
  refine ⟨?_, ?_, ?_, ?_, ?_⟩ <;>
    simp [run, runIter, h, appendAssistantText, recordModelSpan,
      List.countP_cons] <;> rfl

/-- Witness for C6: a single plain-text model turn under the default
iteration budget. -/
theorem run_plain_text_witness :
    (run (fun _ => ModelStep.finalText "No APIs are currently registered.")
        (fun c => ⟨c.id, true, "ok"⟩)
        [⟨SRole.user, "list registered APIs", []⟩] 10).final_text =
      "No APIs are currently registered." ∧
    (run (fun _ => ModelStep.finalText "No APIs are currently registered.")
        (fun c => ⟨c.id, true, "ok"⟩)
        [⟨SRole.user, "list registered APIs", []⟩] 10).spans.countP
        (fun s => s.kind == SpanKind.MODEL) = 1 ∧
    (run (fun _ => ModelStep.finalText "No APIs are currently registered.")
        (fun c => ⟨c.id, true, "ok"⟩)
        [⟨SRole.user, "list registered APIs", []⟩] 10).spans.countP
        (fun s => s.kind == SpanKind.TOOL) = 0 := by
  have h := run_plain_text
    (fun _ => ModelStep.finalText "No APIs are currently registered.")
    (fun c => ⟨c.id, true, "ok"⟩)
    [⟨SRole.user, "list registered APIs", []⟩] 10
    "No APIs are currently registered." (by omega) rfl
  exact ⟨h.1, h.2.2.1, h.2.2.2.1⟩

end AgentCore

namespace AgentCore

/-- Executing a tool call preserves the span invariant: every recorded
span is closed by the current clock and parented to the root span. -/
theorem execToolCall_span_inv (exec : SToolCall → SToolResult)
    (st : LoopState) (c : SToolCall)
    (h : ∀ s ∈ st.spans, s.end_time ≤ st.clock ∧ s.parent_id = some 0) :
    ∀ s ∈ (execToolCall exec st c).spans,
      s.end_time ≤ (execToolCall exec st c).clock ∧
      s.parent_id = some 0 := by
  intro s hs
  simp only [execToolCall, List.mem_append, List.mem_cons,
    List.not_mem_nil, or_false] at hs
  rcases hs with hmem | rfl
  · obtain ⟨he, hp⟩ := h s hmem
    refine ⟨?_, hp⟩
    show s.end_time ≤ st.clock + 2
    omega
  · exact ⟨Nat.le_succ _, rfl⟩

/-- Executing a turn's tool calls preserves the span invariant. -/
theorem foldl_execToolCall_span_inv (exec : SToolCall → SToolResult) :
    ∀ (cs : List SToolCall) (st : LoopState),
      (∀ s ∈ st.spans, s.end_time ≤ st.clock ∧ s.parent_id = some 0) →
      ∀ s ∈ (cs.foldl (execToolCall exec) st).spans,
        s.end_time ≤ (cs.foldl (execToolCall exec) st).clock ∧
        s.parent_id = some 0
  | [], _, h => h
  | c :: cs, st, h => by
      rw [List.foldl_cons]
      exact foldl_execToolCall_span_inv exec cs (execToolCall exec st c)
        (execToolCall_span_inv exec st c h)

/-- Recording a model span preserves the span invariant. -/
theorem recordModelSpan_span_inv (st : LoopState)
    (h : ∀ s ∈ st.spans, s.end_time ≤ st.clock ∧ s.parent_id = some 0) :
    ∀ s ∈ (recordModelSpan st).spans,
      s.end_time ≤ (recordModelSpan st).clock ∧
      s.parent_id = some 0 := by
  intro s hs
  simp only [recordModelSpan, List.mem_append, List.mem_cons,
    List.not_mem_nil, or_false] at hs
  rcases hs with hmem | rfl
  · obtain ⟨he, hp⟩ := h s hmem
    refine ⟨?_, hp⟩
    show s.end_time ≤ st.clock + 2
    omega
  · exact ⟨Nat.le_succ _, rfl⟩

/-- The loop preserves the span invariant: on exit, every recorded span
is closed by the final clock and parented to the root span. -/
theorem runIter_span_inv (model : List SMessage → ModelStep)
    (exec : SToolCall → SToolResult) :
    ∀ (fuel : Nat) (st : LoopState),
      (∀ s ∈ st.spans, s.end_time ≤ st.clock ∧ s.parent_id = some 0) →
      ∀ s ∈ (runIter model exec fuel st).2.2.spans,
        s.end_time ≤ (runIter model exec fuel st).2.2.clock ∧
        s.parent_id = some 0
  | 0, _, h => h
  | fuel + 1, st, h => by
      cases hm : model st.conv with
      | finalText t =>
          simp only [runIter, hm]
          exact recordModelSpan_span_inv st h
      | toolCalls cs =>
          simp only [runIter, hm]
          exact runIter_span_inv model exec fuel
            (bumpIterations
              (cs.foldl (execToolCall exec)
                (appendAssistantCalls (recordModelSpan st) cs)))
            (foldl_execToolCall_span_inv exec cs
              (appendAssistantCalls (recordModelSpan st) cs)
              (recordModelSpan_span_inv st h))

/-- Claim C7: in every finalized trace produced by `run`, span nesting
reflects call nesting in time — every non-root span is parented to the
root span, and the root span's start time is at most the child's start
time while its end time is at least the child's end time. -/
theorem run_span_containment (model : List SMessage → ModelStep)
    (exec : SToolCall → SToolResult) (conv : List SMessage)
    (maxIterations : Nat) :
    ∀ s ∈ (run model exec conv maxIterations).spans,
      s.parent_id = some (run model exec conv maxIterations).root.span_id ∧
      (run model exec conv maxIterations).root.start_time ≤
        s.start_time ∧
      s.end_time ≤ (run model exec conv maxIterations).root.end_time := by
  intro s hs
  have h := runIter_span_inv model exec maxIterations ⟨conv, 1, [], [], 0⟩
    (by intro s hs; simp at hs) s hs
  exact ⟨h.2, Nat.zero_le _, h.1⟩

/-- Witness for C7: the single model span of a one-turn run is contained
in the root agent span. -/
theorem run_span_containment_witness :
    (⟨1, "model", SpanKind.MODEL, 1, 2, some 0, SpanStatus.SUCCESS⟩ :
        Span).parent_id =
      some (run (fun _ => ModelStep.finalText "done")
          (fun c => ⟨c.id, true, "ok"⟩) [] 1).root.span_id ∧
    (run (fun _ => ModelStep.finalText "done")
        (fun c => ⟨c.id, true, "ok"⟩) [] 1).root.start_time ≤
      (⟨1, "model", SpanKind.MODEL, 1, 2, some 0, SpanStatus.SUCCESS⟩ :
        Span).start_time ∧
    (⟨1, "model", SpanKind.MODEL, 1, 2, some 0, SpanStatus.SUCCESS⟩ :
        Span).end_time ≤
      (run (fun _ => ModelStep.finalText "done")
          (fun c => ⟨c.id, true, "ok"⟩) [] 1).root.end_time :=
  run_span_containment (fun _ => ModelStep.finalText "done")
    (fun c => ⟨c.id, true, "ok"⟩) [] 1
    ⟨1, "model", SpanKind.MODEL, 1, 2, some 0, SpanStatus.SUCCESS⟩
    (by decide)

/-- Executing a tool call appends matching entries to the executed list
and to the `TOOL`-kind spans, keeping their name sequences equal. -/
theorem execToolCall_executed_names (exec : SToolCall → SToolResult)
    (st : LoopState) (c : SToolCall)
    (h : st.executed.map (fun e => e.tool) =
      (st.spans.filter (fun s => s.kind == SpanKind.TOOL)).map
        (fun s => s.name)) :
    (execToolCall exec st c).executed.map (fun e => e.tool) =
      ((execToolCall exec st c).spans.filter
          (fun s => s.kind == SpanKind.TOOL)).map (fun s => s.name) := by
  simp [execToolCall, List.filter_append, h]
  rfl

/-- Executing a turn's tool calls keeps the executed names aligned with
the `TOOL`-span names. -/
theorem foldl_execToolCall_executed_names
    (exec : SToolCall → SToolResult) :
    ∀ (cs : List SToolCall) (st : LoopState),
      st.executed.map (fun e => e.tool) =
        (st.spans.filter (fun s => s.kind == SpanKind.TOOL)).map
          (fun s => s.name) →
      (cs.foldl (execToolCall exec) st).executed.map (fun e => e.tool) =
        ((cs.foldl (execToolCall exec) st).spans.filter
            (fun s => s.kind == SpanKind.TOOL)).map (fun s => s.name)
  | [], _, h => h
  | c :: cs, st, h => by
      rw [List.foldl_cons]
      exact foldl_execToolCall_executed_names exec cs
        (execToolCall exec st c) (execToolCall_executed_names exec st c h)

/-- Recording a model span adds no `TOOL`-kind span and no executed
entry. -/
theorem recordModelSpan_executed_names (st : LoopState)
    (h : st.executed.map (fun e => e.tool) =
      (st.spans.filter (fun s => s.kind == SpanKind.TOOL)).map
        (fun s => s.name)) :
    (recordModelSpan st).executed.map (fun e => e.tool) =
      ((recordModelSpan st).spans.filter
          (fun s => s.kind == SpanKind.TOOL)).map (fun s => s.name) := by
  simp [recordModelSpan, List.filter_append, h]
  rfl

/-- On loop exit the executed-call names equal the `TOOL`-span names, in
order. -/
theorem runIter_executed_names (model : List SMessage → ModelStep)
    (exec : SToolCall → SToolResult) :
    ∀ (fuel : Nat) (st : LoopState),
      st.executed.map (fun e => e.tool) =
        (st.spans.filter (fun s => s.kind == SpanKind.TOOL)).map
          (fun s => s.name) →
      (runIter model exec fuel st).2.2.executed.map (fun e => e.tool) =
        ((runIter model exec fuel st).2.2.spans.filter
            (fun s => s.kind == SpanKind.TOOL)).map (fun s => s.name)
  | 0, _, h => h
  | fuel + 1, st, h => by
      cases hm : model st.conv with
      | finalText t =>
          simp only [runIter, hm]
          exact recordModelSpan_executed_names st h
      | toolCalls cs =>
          simp only [runIter, hm]
          exact runIter_executed_names model exec fuel
            (bumpIterations
              (cs.foldl (execToolCall exec)
                (appendAssistantCalls (recordModelSpan st) cs)))
            (foldl_execToolCall_executed_names exec cs
              (appendAssistantCalls (recordModelSpan st) cs)
              (recordModelSpan_executed_names st h))

/-- Claim C8: the caller-facing response of one orchestration request
carries the final answer text, the ordered list of executed tool calls
(each recording tool name, arguments and result, in execution order —
their names match the trace's `TOOL` spans in order), and a trace
identifier under which `get_trace` finds the full trace; the client's
`sendMessageArch` displays exactly these fields on the appended
assistant message. -/
theorem agentChatResponse_contract (model : List SMessage → ModelStep)
    (exec : SToolCall → SToolResult) (conv : List SMessage)
    (maxIterations : Nat) (tid : String) :
    (mkAgentChatResponse (run model exec conv maxIterations)
        tid).response =
      (run model exec conv maxIterations).final_text ∧
    (mkAgentChatResponse (run model exec conv maxIterations)
        tid).tool_calls =
      (run model exec conv maxIterations).executed ∧
    (mkAgentChatResponse (run model exec conv maxIterations)
        tid).tool_calls.map (fun e => e.tool) =
      ((run model exec conv maxIterations).spans.filter
          (fun s => s.kind == SpanKind.TOOL)).map (fun s => s.name) ∧
    get_trace [(tid, run model exec conv maxIterations)]
        (mkAgentChatResponse (run model exec conv maxIterations)
          tid).trace_id =
      some (run model exec conv maxIterations) ∧
    ∀ (prev : List AgentClient.Message) (u : AgentClient.Message)
      (resp : String) (tcs : List AgentClient.DisplayToolCall)
      (tid' : Option String),
      AgentClient.sendMessageArch prev u
          (AgentClient.FetchOutcome.ok ⟨none, resp, tcs, tid'⟩) =
        prev ++ [u, ⟨Role.assistant, resp, tcs, tid'⟩] := by
  refine ⟨rfl, rfl, ?_, ?_, ?_⟩
  · exact runIter_executed_names model exec maxIterations
      ⟨conv, 1, [], [], 0⟩ rfl
  · simp [get_trace, List.lookup, mkAgentChatResponse]
  · intro prev u resp tcs tid'
    simp [AgentClient.sendMessageArch, dropLast_append_pair]

end AgentCore
